import Mathlib

/-!
Shallow embedding of the FPL-Dashboard data acquisition, caching and
rolling-metric pipeline (`src/fpl_data_handler.py`, class `FPLDataHandler`).

Modelling conventions:
* JSON documents exchanged with the remote API are embedded as typed
  structures holding exactly the fields the handler reads.
* The on-disk cache (one JSON file per key, with the file's modification
  time as the freshness proxy) is a `CacheState` mapping each key family
  to an optional pair of (write time in hours, document).  Times are
  integers measured in hours, so `is_cache_valid` can compare ages with
  the per-type TTLs directly, mirroring `(now - file_time) < timedelta(hours=h)`.
* Network effects are an oracle in `Env`: `fetchBootstrap` / `fetchHistory`
  / `fetchPicks` return `none` exactly when `requests.get` raises a
  `RequestException`, and `some doc` on a 2xx response.
* Streamlit messages (`st.error` / `st.warning` / `st.success`) are
  observable effects; they are collected as a list of `Signal`s.  The
  progress bar updates are pure display and carry no data, so they are
  omitted, as is the formatted `Cost` display string (a rendering of
  `Cost_Numeric`).
* Python `float` arithmetic is modelled over `ℚ`; `round(x, 2)` is
  modelled by exact half-to-even rounding at two decimal places.  Exact
  quotients are built with `mkRat` (equal to `/` by `Rat.mkRat_eq_div`)
  so that concrete runs reduce inside `decide`/`rfl`.
* `dict[key]` lookups that can raise `KeyError` are embedded as `Option`
  lookups, and the uncaught propagation of a `KeyError` out of
  `calculate_rolling_averages` is an `Except.error`.
-/

/-- One entry of `element-summary['history']`: a player's per-gameweek row.
Fields are the ones read by `calculate_rolling_averages`. -/
structure GameEntry where
  round : Nat
  minutes : Nat
  total_points : Int
  goals_scored : Nat
  assists : Nat
  bonus : Nat
deriving DecidableEq

/-- The per-player document returned by `element-summary/{id}/`; the handler
only reads its `history` list (`history_data.get('history', [])`). -/
structure HistoryData where
  history : List GameEntry
deriving DecidableEq

/-- One entry of `bootstrap-static['events']` (a gameweek). -/
structure Event where
  id : Nat
  is_current : Bool
deriving DecidableEq

/-- One entry of `bootstrap-static['teams']`. -/
structure Team where
  id : Nat
  name : String
deriving DecidableEq

/-- One entry of `bootstrap-static['elements']` (a player).  `form` and
`ict_index` arrive as strings and are converted with
`float(x) if x else 0`; `none` models the falsy (empty) string. -/
structure PlayerElem where
  id : Nat
  web_name : String
  team : Nat
  element_type : Nat
  now_cost : Nat
  form : Option ℚ
  selected_by_percent : ℚ
  ict_index : Option ℚ
deriving DecidableEq

/-- The `bootstrap-static/` document, restricted to the fields read. -/
structure BootstrapData where
  elements : List PlayerElem
  teams : List Team
  events : List Event
deriving DecidableEq

/-- The `entry/{team}/event/{gw}/picks/` document; its contents are opaque
to the handler (returned as-is), so only the pick element ids are kept. -/
structure TeamData where
  picks : List Nat
deriving DecidableEq

/-- One row of the table produced by `calculate_rolling_averages`.  The
Python keys `Last_{weeks}_GW_Points` and `Rolling_{weeks}_Week_Avg` embed
the window size in their names; here the labels are fixed since the window
size is already a parameter of the computation. -/
structure RollingRecord where
  Player : String
  Player_ID : Nat
  Team : String
  Position : String
  Cost_Numeric : ℚ
  Last_GW_Points : Int
  Rolling_Week_Avg : ℚ
  Points_Per_90 : ℚ
  Goals : Nat
  Assists : Nat
  Bonus_Points : Nat
  Total_Minutes : Nat
  Form : ℚ
  Selected_By : ℚ
  ICT_Index : ℚ
deriving DecidableEq

/-- The document saved under `results_{weeks}wk`: the sorted table, the
computation timestamp and the resolved current gameweek. -/
structure ResultsDoc where
  data : List RollingRecord
  timestamp : ℤ
  gameweek : Nat
deriving DecidableEq

/-- The on-disk cache: each key family maps to `none` (no file) or
`some (write time in hours, document)`.  `player` is keyed by player id
(`player_{id}.json`), `team` by team id and the gameweek part of the key
(`team_{id}_{gw}` / `team_{id}_current`, the latter modelled by `none`),
`results` by the window size (`results_{weeks}wk`). -/
structure CacheState where
  bootstrap : Option (ℤ × BootstrapData)
  player : Nat → Option (ℤ × HistoryData)
  team : Nat → Option Nat → Option (ℤ × TeamData)
  results : Nat → Option (ℤ × ResultsDoc)

/-- The ambient world: the clock (hours) and the network oracles.  A `none`
from an oracle models `requests.exceptions.RequestException`. -/
structure Env where
  now : ℤ
  fetchBootstrap : Option BootstrapData
  fetchHistory : Nat → Option HistoryData
  fetchPicks : Nat → Nat → Option TeamData

/-- Streamlit messages observable during a run. -/
inductive Signal where
  | errorFetchBootstrap
  | warnStaleBootstrap
  | errorNoData
  | warnSeasonInactive
  | successMsg
  | errorFetchTeam
deriving DecidableEq

/-- Uncaught `KeyError`s escaping `calculate_rolling_averages`:
`teams[player['team']]` or `positions[player['element_type']]`. -/
inductive KeyErr where
  | team (tid : Nat)
  | position (et : Nat)
deriving DecidableEq

/-- Embeds `is_cache_valid`: false when no file exists, otherwise true iff
the entry's age is strictly below `maxAgeHours`. -/
def is_cache_valid (maxAgeHours now : ℤ) : Option (ℤ × α) → Bool
  | none => false
  | some (t, _) => decide (now - t < maxAgeHours)

/-- Embeds `load_from_cache`: the stored document of an existing entry.  A
typed document is never falsy, so Python's `if cached_data:` test succeeds
exactly when the entry exists. -/
def loadDoc (e : Option (ℤ × α)) : Option α := e.map Prod.snd

/-- Embeds `get_bootstrap_data`: cache-first with 6h TTL, then a fresh
fetch (saved on success), then the stale-cache fallback with an error and
a "using stale data" warning, and finally `None` with only the error. -/
def get_bootstrap_data (env : Env) (s : CacheState) :
    Option BootstrapData × CacheState × List Signal :=
  match (if is_cache_valid 6 env.now s.bootstrap then loadDoc s.bootstrap else none) with
  | some d => (some d, s, [])
  | none =>
    match env.fetchBootstrap with
    | some d => (some d, { s with bootstrap := some (env.now, d) }, [])
    | none =>
      match loadDoc s.bootstrap with
      | some d => (some d, s, [Signal.errorFetchBootstrap, Signal.warnStaleBootstrap])
      | none => (none, s, [Signal.errorFetchBootstrap])

/-- Embeds `get_player_history`: cache-first with 24h TTL, then a fresh
fetch (saved on success), then the silent stale-cache fallback. -/
def get_player_history (env : Env) (s : CacheState) (pid : Nat) :
    Option HistoryData × CacheState :=
  match (if is_cache_valid 24 env.now (s.player pid) then loadDoc (s.player pid) else none) with
  | some d => (some d, s)
  | none =>
    match env.fetchHistory pid with
    | some d =>
      (some d, { s with player := fun q => if q = pid then some (env.now, d) else s.player q })
    | none => (loadDoc (s.player pid), s)

/-- The gameweek component of the team-picks cache key:
`gameweek if gameweek else 'current'`, where both `None` and `0` are falsy. -/
def teamKeyGw : Option Nat → Option Nat
  | some (n + 1) => some (n + 1)
  | _ => none

/-- Embeds the current-gameweek scan used in `get_team_data` and
`calculate_rolling_averages`: the id of the first event flagged
`is_current`, if any. -/
def findCurrentGw (events : List Event) : Option Nat :=
  (events.find? (fun e => e.is_current)).map (fun e => e.id)

/-- Embeds `get_team_data`: cache-first with 2h TTL; with a falsy
`gameweek` argument the current gameweek is resolved via
`get_bootstrap_data`; a truthy gameweek leads to one picks fetch (saved on
success under the key computed from the *original* argument); every other
path returns `None`. -/
def get_team_data (env : Env) (s : CacheState) (team_id : Nat) (gameweek : Option Nat) :
    Option TeamData × CacheState × List Signal :=
  let key := teamKeyGw gameweek
  match (if is_cache_valid 2 env.now (s.team team_id key) then loadDoc (s.team team_id key) else none) with
  | some d => (some d, s, [])
  | none =>
    let resolved : Option Nat × CacheState × List Signal :=
      match gameweek with
      | some (n + 1) => (some (n + 1), s, [])
      | _ =>
        match get_bootstrap_data env s with
        | (some b, s₁, sigs) => (findCurrentGw b.events, s₁, sigs)
        | (none, s₁, sigs) => (gameweek, s₁, sigs)
    match resolved with
    | (some (g + 1), s₁, sigs) =>
      match env.fetchPicks team_id (g + 1) with
      | some td =>
        (some td,
         { s₁ with team := fun i k => if i = team_id ∧ k = key then some (env.now, td) else s₁.team i k },
         sigs)
      | none => (none, s₁, sigs ++ [Signal.errorFetchTeam])
    | (_, s₁, sigs) => (none, s₁, sigs)

/-- Embeds the dict comprehension `{team['id']: team['name'] for team in teams}`
followed by `teams[tid]`: a later duplicate id overwrites an earlier one,
hence the lookup takes the last matching entry; a missing key is `none`
(`KeyError`). -/
def teamsMap (ts : List Team) (tid : Nat) : Option String :=
  (ts.reverse.find? (fun t => decide (t.id = tid))).map (fun t => t.name)

/-- Embeds the fixed 4-entry `positions` dict; any other key is a `KeyError`. -/
def positionsMap : Nat → Option String
  | 1 => some "Goalkeeper"
  | 2 => some "Defender"
  | 3 => some "Midfielder"
  | 4 => some "Forward"
  | _ => none

/-- Embeds the history filter
`[g for g in history if g['round'] <= current_gw and g['minutes'] > 0]`. -/
def qualifying (gw : Nat) (history : List GameEntry) : List GameEntry :=
  history.filter (fun g => decide (g.round ≤ gw) && decide (0 < g.minutes))

/-- Stable insertion for a round-descending sort: the element being
inserted comes earlier in the original list, so on equal rounds it stays
in front, matching Python's stable `list.sort(key=round, reverse=True)`. -/
def insertRoundDesc (g : GameEntry) : List GameEntry → List GameEntry
  | [] => [g]
  | h :: t => if h.round ≤ g.round then g :: h :: t else h :: insertRoundDesc g t

/-- Embeds `recent_games.sort(key=lambda x: x['round'], reverse=True)`:
stable sort by round, descending. -/
def sortRoundDesc : List GameEntry → List GameEntry
  | [] => []
  | g :: t => insertRoundDesc g (sortRoundDesc t)

/-- The window actually aggregated: `recent_games[:weeks]` after the
descending sort. -/
def windowOf (weeks gw : Nat) (history : List GameEntry) : List GameEntry :=
  (sortRoundDesc (qualifying gw history)).take weeks

/-- Nearest integer to the fraction `a / b` (with `b > 0`), ties to even:
`n` and `r` are the floor quotient and remainder, and the remainder is
compared against half of `b`. -/
def roundNearestEven (a b : ℤ) : ℤ :=
  let n : ℤ := a.fdiv b
  let r : ℤ := a.fmod b
  if 2 * r < b then n
  else if b < 2 * r then n + 1
  else if n % 2 = 0 then n else n + 1

/-- Models Python `round(x, 2)` over exact rational arithmetic: half-even
rounding of `100 * q`, divided by `100`. -/
def round2 (q : ℚ) : ℚ := mkRat (roundNearestEven (q.num * 100) (q.den : ℤ)) 100

/-- Builds the result row appended for a qualifying player: all sums range
over `windowOf weeks gw history`, the rolling average is `total/weeks`,
and points-per-90 is guarded by `total_minutes > 0`. -/
def mkRecord (weeks gw : Nat) (p : PlayerElem) (team_name position : String)
    (history : List GameEntry) : RollingRecord :=
  let lastN := windowOf weeks gw history
  let total_points : Int := (lastN.map (fun g => g.total_points)).sum
  let rolling_avg : ℚ := mkRat total_points weeks
  let total_minutes : Nat := (lastN.map (fun g => g.minutes)).sum
  let ppm90 : ℚ :=
    if 0 < total_minutes then mkRat (total_points * 90) total_minutes else 0
  { Player := p.web_name
    Player_ID := p.id
    Team := team_name
    Position := position
    Cost_Numeric := mkRat (p.now_cost : ℤ) 10
    Last_GW_Points := total_points
    Rolling_Week_Avg := round2 rolling_avg
    Points_Per_90 := round2 ppm90
    Goals := (lastN.map (fun g => g.goals_scored)).sum
    Assists := (lastN.map (fun g => g.assists)).sum
    Bonus_Points := (lastN.map (fun g => g.bonus)).sum
    Total_Minutes := total_minutes
    Form := p.form.getD 0
    Selected_By := p.selected_by_percent
    ICT_Index := p.ict_index.getD 0 }

/-- Embeds the per-player loop of `calculate_rolling_averages`: the team
and position lookups happen first (an absent key raises, aborting the
whole loop), then the history is fetched; a player without history data or
with fewer than `weeks` qualifying entries is skipped silently. -/
def playersLoop (env : Env) (weeks gw : Nat) (teams : List Team) :
    List PlayerElem → CacheState → Except KeyErr (List RollingRecord × CacheState)
  | [], s => .ok ([], s)
  | p :: ps, s =>
    match teamsMap teams p.team with
    | none => .error (KeyErr.team p.team)
    | some tn =>
      match positionsMap p.element_type with
      | none => .error (KeyErr.position p.element_type)
      | some pos =>
        match get_player_history env s p.id with
        | (none, s₁) => playersLoop env weeks gw teams ps s₁
        | (some hd, s₁) =>
          let recent := sortRoundDesc (qualifying gw hd.history)
          if weeks ≤ recent.length then
            match playersLoop env weeks gw teams ps s₁ with
            | .error e => .error e
            | .ok (rest, s₂) => .ok (mkRecord weeks gw p tn pos hd.history :: rest, s₂)
          else
            playersLoop env weeks gw teams ps s₁

/-- Stable ascending insertion by the rolling-average column; the inserted
element comes earlier in the accumulation order, so on equal keys it stays
in front of later ones. -/
def insertAvgAsc (x : RollingRecord) : List RollingRecord → List RollingRecord
  | [] => [x]
  | y :: ys =>
    if x.Rolling_Week_Avg ≤ y.Rolling_Week_Avg then x :: y :: ys else y :: insertAvgAsc x ys

/-- Stable ascending sort by the rolling-average column; models numpy's
`argsort(kind='quicksort')` in its small-array regime, where the
implementation is a stable insertion sort. -/
def argsortAvgAsc : List RollingRecord → List RollingRecord
  | [] => []
  | x :: xs => insertAvgAsc x (argsortAvgAsc xs)

/-- Embeds `df.sort_values(f'Rolling_{weeks}_Week_Avg', ascending=False)`:
pandas' `nargsort` computes the *ascending* argsort and then reverses the
whole indexer for a descending sort, so equal keys come out in reversed
accumulation order. -/
def sort_values_desc (l : List RollingRecord) : List RollingRecord :=
  (argsortAvgAsc l).reverse

/-- Embeds the results-cache write at the end of `calculate_rolling_averages`:
`save_to_cache(f'results_{weeks}wk', {'data': ..., 'timestamp': now, 'gameweek': gw})`. -/
def saveResults (s : CacheState) (weeks : Nat) (t : ℤ) (data : List RollingRecord)
    (gw : Nat) : CacheState :=
  { s with results := fun m => if m = weeks then some (t, ⟨data, t, gw⟩) else s.results m }

/-- Embeds `calculate_rolling_averages(weeks)`.  The early returns with an
empty `DataFrame` (bootstrap unobtainable; no current gameweek — note that
`if not current_gw:` also treats an event id of `0` as absent) are `.ok`
with the corresponding signal; an uncaught `KeyError` in the loop is
`.error`; the final sort and the `results_{weeks}wk` write happen only
when the accumulated table is non-empty (`if not df.empty:`). -/
def calculate_rolling_averages (env : Env) (s : CacheState) (weeks : Nat) :
    Except KeyErr (List RollingRecord × CacheState × List Signal) :=
  match get_bootstrap_data env s with
  | (none, s₁, sigs) => .ok ([], s₁, sigs ++ [Signal.errorNoData])
  | (some b, s₁, sigs) =>
    match findCurrentGw b.events with
    | none => .ok ([], s₁, sigs ++ [Signal.warnSeasonInactive])
    | some gw =>
      if gw = 0 then .ok ([], s₁, sigs ++ [Signal.warnSeasonInactive])
      else
        match playersLoop env weeks gw b.teams b.elements s₁ with
        | .error e => .error e
        | .ok (results, s₂) =>
          let sigs₂ := sigs ++ [Signal.successMsg]
          match results with
          | [] => .ok ([], s₂, sigs₂)
          | r :: rs =>
            let df := sort_values_desc (r :: rs)
            .ok (df, saveResults s₂ weeks env.now df gw, sigs₂)

/-- The data component of `get_player_history` as a function of the one
cache entry it reads; lets per-player facts be stated independently of the
cache-state threading through the loop. -/
def historyLookup (env : Env) (pid : Nat) (e : Option (ℤ × HistoryData)) :
    Option HistoryData :=
  match (if is_cache_valid 24 env.now e then loadDoc e else none) with
  | some d => some d
  | none =>
    match env.fetchHistory pid with
    | some d => some d
    | none => loadDoc e

/-- A state-free rendering of the per-player loop used for cache-hit runs:
when every player's cache entry is fresh `playersLoop` never writes, so its
result is a pure function of the `player` component of the starting state. -/
def pureLoop (env : Env) (hist : Nat → Option (ℤ × HistoryData)) (weeks gw : Nat)
    (teams : List Team) : List PlayerElem → Except KeyErr (List RollingRecord)
  | [] => .ok []
  | p :: ps =>
    match teamsMap teams p.team with
    | none => .error (KeyErr.team p.team)
    | some tn =>
      match positionsMap p.element_type with
      | none => .error (KeyErr.position p.element_type)
      | some pos =>
        match historyLookup env p.id (hist p.id) with
        | none => pureLoop env hist weeks gw teams ps
        | some hd =>
          if weeks ≤ (sortRoundDesc (qualifying gw hd.history)).length then
            match pureLoop env hist weeks gw teams ps with
            | .error e => .error e
            | .ok rest => .ok (mkRecord weeks gw p tn pos hd.history :: rest)
          else pureLoop env hist weeks gw teams ps

/-! Concrete scenarios used by the closed instances below.  All of them run
against a clock of `now = 10` hours, a failing network (every fetch raises),
and caches written at hour `9` (age 1h: fresh for every TTL) or hour `0`
(age 10h: stale for the 6h bootstrap TTL). -/

def envFix : Env :=
  { now := 10
    fetchBootstrap := none
    fetchHistory := fun _ => none
    fetchPicks := fun _ _ => none }

def histAlice : HistoryData := ⟨[⟨1, 70, 1, 0, 0, 0⟩]⟩

def pAlice : PlayerElem := ⟨10, "Alice", 1, 3, 55, none, 12, none⟩

def bAlice : BootstrapData := ⟨[pAlice], [⟨1, "Arsenal"⟩], [⟨1, true⟩]⟩

def sAlice : CacheState :=
  ⟨some (9, bAlice), fun q => if q = 10 then some (9, histAlice) else none,
    fun _ _ => none, fun _ => none⟩

def recAlice : RollingRecord := mkRecord 1 1 pAlice "Arsenal" "Midfielder" histAlice.history

def tblAlice : List RollingRecord := sort_values_desc [recAlice]

def stAlice : CacheState := saveResults sAlice 1 10 tblAlice 1

def bNoCur : BootstrapData := ⟨[], [], [⟨1, false⟩]⟩

def sNoCur : CacheState := ⟨some (9, bNoCur), fun _ => none, fun _ _ => none, fun _ => none⟩

def sStale : CacheState := ⟨some (0, bNoCur), fun _ => none, fun _ _ => none, fun _ => none⟩

def sEmptyCache : CacheState := ⟨none, fun _ => none, fun _ _ => none, fun _ => none⟩

def bEmptyElems : BootstrapData := ⟨[], [], [⟨1, true⟩]⟩

def sEmptyElems : CacheState :=
  ⟨some (9, bEmptyElems), fun _ => none, fun _ _ => none, fun _ => none⟩

def pBadTeam : PlayerElem := ⟨7, "Bob", 99, 3, 40, none, 5, none⟩

def bBad : BootstrapData := ⟨[pBadTeam], [⟨1, "Arsenal"⟩], [⟨1, true⟩]⟩

def sBad : CacheState := ⟨some (9, bBad), fun _ => none, fun _ _ => none, fun _ => none⟩

def qFail : PlayerElem := ⟨20, "Quentin", 1, 4, 45, none, 3, none⟩

def bSkip : BootstrapData := ⟨[pAlice, qFail], [⟨1, "Arsenal"⟩], [⟨1, true⟩]⟩

def sSkip : CacheState :=
  ⟨some (9, bSkip), fun q => if q = 10 then some (9, histAlice) else none,
    fun _ _ => none, fun _ => none⟩

def stSkip : CacheState := saveResults sSkip 1 10 tblAlice 1

def histTie : HistoryData := ⟨[⟨1, 90, 5, 0, 0, 0⟩]⟩

def pAnn : PlayerElem := ⟨1, "Ann", 1, 3, 50, none, 10, none⟩

def pBea : PlayerElem := ⟨2, "Bea", 1, 3, 50, none, 10, none⟩

def bTie : BootstrapData := ⟨[pAnn, pBea], [⟨1, "Arsenal"⟩], [⟨1, true⟩]⟩

def sTie : CacheState :=
  ⟨some (9, bTie), fun q => if q = 1 ∨ q = 2 then some (9, histTie) else none,
    fun _ _ => none, fun _ => none⟩

def recAnn : RollingRecord := mkRecord 1 1 pAnn "Arsenal" "Midfielder" histTie.history

def recBea : RollingRecord := mkRecord 1 1 pBea "Arsenal" "Midfielder" histTie.history

def tblTie : List RollingRecord := sort_values_desc [recAnn, recBea]

def stTie : CacheState := saveResults sTie 1 10 tblTie 1

def tdPicks : TeamData := ⟨[100]⟩

def sPicksCached : CacheState :=
  ⟨some (9, bNoCur), fun _ => none,
    fun i k => if i = 7 ∧ k = none then some (9, tdPicks) else none, fun _ => none⟩

/-! Lemmas about the round-descending stable sort used inside the loop. -/

theorem insertRoundDesc_length (g : GameEntry) (l : List GameEntry) :
    (insertRoundDesc g l).length = l.length + 1 := by
  induction l with
  | nil => rfl
  | cons h t ih =>
    unfold insertRoundDesc
    split
    · rfl
    · simp only [List.length_cons, ih]

theorem sortRoundDesc_length (l : List GameEntry) :
    (sortRoundDesc l).length = l.length := by
  induction l with
  | nil => rfl
  | cons g t ih =>
    unfold sortRoundDesc
    rw [insertRoundDesc_length, ih, List.length_cons]

theorem insertRoundDesc_perm (g : GameEntry) (l : List GameEntry) :
    (insertRoundDesc g l).Perm (g :: l) := by
  induction l with
  | nil => exact List.Perm.refl _
  | cons h t ih =>
    unfold insertRoundDesc
    split
    · exact List.Perm.refl _
    · exact (ih.cons h).trans (List.Perm.swap g h t)

theorem sortRoundDesc_perm (l : List GameEntry) : (sortRoundDesc l).Perm l := by
  induction l with
  | nil => exact List.Perm.refl _
  | cons g t ih =>
    unfold sortRoundDesc
    exact (insertRoundDesc_perm g (sortRoundDesc t)).trans (ih.cons g)

theorem mem_insertRoundDesc {g x : GameEntry} {l : List GameEntry}
    (hx : x ∈ insertRoundDesc g l) : x = g ∨ x ∈ l := by
  have := (insertRoundDesc_perm g l).mem_iff.mp hx
  simpa using this

theorem insertRoundDesc_pairwise {g : GameEntry} {l : List GameEntry}
    (hl : l.Pairwise (fun a b => b.round ≤ a.round)) :
    (insertRoundDesc g l).Pairwise (fun a b => b.round ≤ a.round) := by
  induction l with
  | nil => simp [insertRoundDesc]
  | cons h t ih =>
    rcases List.pairwise_cons.mp hl with ⟨hh, ht⟩
    unfold insertRoundDesc
    split
    · rename_i hle
      refine List.pairwise_cons.mpr ⟨?_, hl⟩
      intro x hx
      rcases List.mem_cons.mp hx with rfl | hx
      · exact hle
      · exact le_trans (hh x hx) hle
    · rename_i hlt
      refine List.pairwise_cons.mpr ⟨?_, ih ht⟩
      intro x hx
      rcases mem_insertRoundDesc hx with rfl | hx
      · exact le_of_not_le hlt
      · exact hh x hx

theorem sortRoundDesc_pairwise (l : List GameEntry) :
    (sortRoundDesc l).Pairwise (fun a b => b.round ≤ a.round) := by
  induction l with
  | nil => simp [sortRoundDesc]
  | cons g t ih => exact insertRoundDesc_pairwise ih

/-! Lemmas about the final descending sort of the table (stable ascending
argsort followed by a reversal). -/

theorem insertAvgAsc_perm (x : RollingRecord) (l : List RollingRecord) :
    (insertAvgAsc x l).Perm (x :: l) := by
  induction l with
  | nil => exact List.Perm.refl _
  | cons y ys ih =>
    unfold insertAvgAsc
    split
    · exact List.Perm.refl _
    · exact (ih.cons y).trans (List.Perm.swap x y ys)

theorem argsortAvgAsc_perm (l : List RollingRecord) : (argsortAvgAsc l).Perm l := by
  induction l with
  | nil => exact List.Perm.refl _
  | cons x xs ih =>
    unfold argsortAvgAsc
    exact (insertAvgAsc_perm x (argsortAvgAsc xs)).trans (ih.cons x)

theorem sort_values_desc_perm (l : List RollingRecord) : (sort_values_desc l).Perm l := by
  unfold sort_values_desc
  exact (List.reverse_perm (argsortAvgAsc l)).trans (argsortAvgAsc_perm l)

theorem mem_sort_values_desc {x : RollingRecord} {l : List RollingRecord} :
    x ∈ sort_values_desc l ↔ x ∈ l :=
  (sort_values_desc_perm l).mem_iff

theorem mem_insertAvgAsc {x y : RollingRecord} {l : List RollingRecord}
    (hy : y ∈ insertAvgAsc x l) : y = x ∨ y ∈ l := by
  have := (insertAvgAsc_perm x l).mem_iff.mp hy
  simpa using this

theorem insertAvgAsc_pairwise {x : RollingRecord} {l : List RollingRecord}
    (hl : l.Pairwise (fun a b => a.Rolling_Week_Avg ≤ b.Rolling_Week_Avg)) :
    (insertAvgAsc x l).Pairwise (fun a b => a.Rolling_Week_Avg ≤ b.Rolling_Week_Avg) := by
  induction l with
  | nil => simp [insertAvgAsc]
  | cons y ys ih =>
    rcases List.pairwise_cons.mp hl with ⟨hy, hys⟩
    unfold insertAvgAsc
    split
    · rename_i hle
      refine List.pairwise_cons.mpr ⟨?_, hl⟩
      intro z hz
      rcases List.mem_cons.mp hz with rfl | hz
      · exact hle
      · exact le_trans hle (hy z hz)
    · rename_i hlt
      refine List.pairwise_cons.mpr ⟨?_, ih hys⟩
      intro z hz
      rcases mem_insertAvgAsc hz with rfl | hz
      · exact le_of_not_le hlt
      · exact hy z hz

theorem argsortAvgAsc_pairwise (l : List RollingRecord) :
    (argsortAvgAsc l).Pairwise (fun a b => a.Rolling_Week_Avg ≤ b.Rolling_Week_Avg) := by
  induction l with
  | nil => simp [argsortAvgAsc]
  | cons x xs ih => exact insertAvgAsc_pairwise ih

theorem sort_values_desc_pairwise (l : List RollingRecord) :
    (sort_values_desc l).Pairwise (fun a b => b.Rolling_Week_Avg ≤ a.Rolling_Week_Avg) := by
  unfold sort_values_desc
  exact (List.pairwise_reverse).mpr (argsortAvgAsc_pairwise l)

theorem filter_insertAvgAsc (k : ℚ) (x : RollingRecord) (l : List RollingRecord) :
    (insertAvgAsc x l).filter (fun r => decide (r.Rolling_Week_Avg = k)) =
      if x.Rolling_Week_Avg = k
      then x :: l.filter (fun r => decide (r.Rolling_Week_Avg = k))
      else l.filter (fun r => decide (r.Rolling_Week_Avg = k)) := by
  induction l with
  | nil =>
    by_cases hx : x.Rolling_Week_Avg = k <;> simp [insertAvgAsc, List.filter, hx]
  | cons y ys ih =>
    unfold insertAvgAsc
    split
    · by_cases hx : x.Rolling_Week_Avg = k <;> simp [List.filter_cons, hx]
    · rename_i hlt
      have hyx : y.Rolling_Week_Avg < x.Rolling_Week_Avg := lt_of_not_le hlt
      by_cases hx : x.Rolling_Week_Avg = k
      · have hy : ¬ y.Rolling_Week_Avg = k := by
          rw [← hx]; exact ne_of_lt hyx
        simp [List.filter_cons, hy, hx, ih]
      · by_cases hy : y.Rolling_Week_Avg = k <;> simp [List.filter_cons, hy, hx, ih]

theorem filter_argsortAvgAsc (k : ℚ) (l : List RollingRecord) :
    (argsortAvgAsc l).filter (fun r => decide (r.Rolling_Week_Avg = k)) =
      l.filter (fun r => decide (r.Rolling_Week_Avg = k)) := by
  induction l with
  | nil => rfl
  | cons x xs ih =>
    unfold argsortAvgAsc
    rw [filter_insertAvgAsc]
    by_cases hx : x.Rolling_Week_Avg = k <;> simp [List.filter_cons, hx, ih]

theorem filter_sort_values_desc (k : ℚ) (l : List RollingRecord) :
    (sort_values_desc l).filter (fun r => decide (r.Rolling_Week_Avg = k)) =
      (l.filter (fun r => decide (r.Rolling_Week_Avg = k))).reverse := by
  unfold sort_values_desc
  rw [List.filter_reverse, filter_argsortAvgAsc]

/-! Characterisation of `get_player_history`: the returned document depends
only on the single cache entry that is read, and the only possible cache
write is to that same entry. -/

theorem get_player_history_fst (env : Env) (s : CacheState) (pid : Nat) :
    (get_player_history env s pid).1 = historyLookup env pid (s.player pid) := by
  unfold get_player_history historyLookup
  rcases h : (if is_cache_valid 24 env.now (s.player pid) then loadDoc (s.player pid) else none) with _ | d
  · simp only [h]
    rcases hf : env.fetchHistory pid with _ | d <;> simp
  · simp only [h]

theorem historyLookup_congr (env : Env) (pid : Nat) {e₁ e₂ : Option (ℤ × HistoryData)}
    (h : e₁ = e₂) : historyLookup env pid e₁ = historyLookup env pid e₂ := by rw [h]

theorem get_player_history_snd_player_ne (env : Env) (s : CacheState) (pid q : Nat)
    (hq : q ≠ pid) : ((get_player_history env s pid).2).player q = s.player q := by
  unfold get_player_history
  rcases h : (if is_cache_valid 24 env.now (s.player pid) then loadDoc (s.player pid) else none) with _ | d
  · rcases hf : env.fetchHistory pid with _ | d <;> simp [hq]
  · simp

theorem get_player_history_snd_of_fetch_none (env : Env) (s : CacheState) (pid : Nat)
    (hf : env.fetchHistory pid = none) : (get_player_history env s pid).2 = s := by
  unfold get_player_history
  rcases h : (if is_cache_valid 24 env.now (s.player pid) then loadDoc (s.player pid) else none) with _ | d
  · simp [hf]
  · simp

theorem get_player_history_snd_bootstrap (env : Env) (s : CacheState) (pid : Nat) :
    ((get_player_history env s pid).2).bootstrap = s.bootstrap := by
  unfold get_player_history
  rcases h : (if is_cache_valid 24 env.now (s.player pid) then loadDoc (s.player pid) else none) with _ | d
  · rcases hf : env.fetchHistory pid with _ | d <;> simp
  · simp

theorem get_player_history_snd_results (env : Env) (s : CacheState) (pid : Nat) :
    ((get_player_history env s pid).2).results = s.results := by
  unfold get_player_history
  rcases h : (if is_cache_valid 24 env.now (s.player pid) then loadDoc (s.player pid) else none) with _ | d
  · rcases hf : env.fetchHistory pid with _ | d <;> simp
  · simp

theorem get_player_history_of_none (env : Env) (s : CacheState) (pid : Nat)
    (he : s.player pid = none) (hf : env.fetchHistory pid = none) :
    get_player_history env s pid = (none, s) := by
  unfold get_player_history
  simp [he, hf, is_cache_valid, loadDoc]

theorem get_player_history_of_valid (env : Env) (s : CacheState) (pid : Nat) {t : ℤ}
    {d : HistoryData} (he : s.player pid = some (t, d))
    (hv : is_cache_valid 24 env.now (s.player pid) = true) :
    get_player_history env s pid = (some d, s) := by
  unfold get_player_history
  rw [he] at hv
  simp [he, hv, loadDoc]

/-! Branch equations for `playersLoop`. -/

theorem playersLoop_nil (env : Env) (weeks gw : Nat) (teams : List Team) (s : CacheState) :
    playersLoop env weeks gw teams [] s = .ok ([], s) := rfl

theorem playersLoop_cons_team_none {env : Env} {weeks gw : Nat} {teams : List Team}
    {p : PlayerElem} {ps : List PlayerElem} {s : CacheState}
    (ht : teamsMap teams p.team = none) :
    playersLoop env weeks gw teams (p :: ps) s = .error (KeyErr.team p.team) := by
  simp only [playersLoop]
  rw [ht]

theorem playersLoop_cons_pos_none {env : Env} {weeks gw : Nat} {teams : List Team}
    {p : PlayerElem} {ps : List PlayerElem} {s : CacheState} {tn : String}
    (ht : teamsMap teams p.team = some tn)
    (hpos : positionsMap p.element_type = none) :
    playersLoop env weeks gw teams (p :: ps) s = .error (KeyErr.position p.element_type) := by
  simp only [playersLoop]
  rw [ht, hpos]

theorem playersLoop_cons_hist_none {env : Env} {weeks gw : Nat} {teams : List Team}
    {p : PlayerElem} {ps : List PlayerElem} {s s₁ : CacheState} {tn pos : String}
    (ht : teamsMap teams p.team = some tn)
    (hpos : positionsMap p.element_type = some pos)
    (hg : get_player_history env s p.id = (none, s₁)) :
    playersLoop env weeks gw teams (p :: ps) s = playersLoop env weeks gw teams ps s₁ := by
  simp only [playersLoop]
  rw [ht, hpos, hg]

theorem playersLoop_cons_short {env : Env} {weeks gw : Nat} {teams : List Team}
    {p : PlayerElem} {ps : List PlayerElem} {s s₁ : CacheState} {tn pos : String}
    {hd : HistoryData}
    (ht : teamsMap teams p.team = some tn)
    (hpos : positionsMap p.element_type = some pos)
    (hg : get_player_history env s p.id = (some hd, s₁))
    (hlen : ¬ weeks ≤ (sortRoundDesc (qualifying gw hd.history)).length) :
    playersLoop env weeks gw teams (p :: ps) s = playersLoop env weeks gw teams ps s₁ := by
  simp only [playersLoop]
  rw [ht, hpos, hg]
  simp only [hlen, if_false]

theorem playersLoop_cons_emit {env : Env} {weeks gw : Nat} {teams : List Team}
    {p : PlayerElem} {ps : List PlayerElem} {s s₁ : CacheState} {tn pos : String}
    {hd : HistoryData}
    (ht : teamsMap teams p.team = some tn)
    (hpos : positionsMap p.element_type = some pos)
    (hg : get_player_history env s p.id = (some hd, s₁))
    (hlen : weeks ≤ (sortRoundDesc (qualifying gw hd.history)).length) :
    playersLoop env weeks gw teams (p :: ps) s =
      match playersLoop env weeks gw teams ps s₁ with
      | .error e => .error e
      | .ok (rest, s₂) => .ok (mkRecord weeks gw p tn pos hd.history :: rest, s₂) := by
  simp only [playersLoop]
  rw [ht, hpos, hg]
  simp only [hlen, if_true]

/-! Field equations of `mkRecord`. -/

@[simp] theorem mkRecord_Player_ID (weeks gw : Nat) (p : PlayerElem) (tn pos : String)
    (h : List GameEntry) : (mkRecord weeks gw p tn pos h).Player_ID = p.id := rfl

@[simp] theorem mkRecord_Last_GW_Points (weeks gw : Nat) (p : PlayerElem) (tn pos : String)
    (h : List GameEntry) :
    (mkRecord weeks gw p tn pos h).Last_GW_Points =
      ((windowOf weeks gw h).map (fun g => g.total_points)).sum := rfl

@[simp] theorem mkRecord_Total_Minutes (weeks gw : Nat) (p : PlayerElem) (tn pos : String)
    (h : List GameEntry) :
    (mkRecord weeks gw p tn pos h).Total_Minutes =
      ((windowOf weeks gw h).map (fun g => g.minutes)).sum := rfl

@[simp] theorem mkRecord_Goals (weeks gw : Nat) (p : PlayerElem) (tn pos : String)
    (h : List GameEntry) :
    (mkRecord weeks gw p tn pos h).Goals =
      ((windowOf weeks gw h).map (fun g => g.goals_scored)).sum := rfl

@[simp] theorem mkRecord_Assists (weeks gw : Nat) (p : PlayerElem) (tn pos : String)
    (h : List GameEntry) :
    (mkRecord weeks gw p tn pos h).Assists =
      ((windowOf weeks gw h).map (fun g => g.assists)).sum := rfl

@[simp] theorem mkRecord_Bonus_Points (weeks gw : Nat) (p : PlayerElem) (tn pos : String)
    (h : List GameEntry) :
    (mkRecord weeks gw p tn pos h).Bonus_Points =
      ((windowOf weeks gw h).map (fun g => g.bonus)).sum := rfl

@[simp] theorem mkRecord_Rolling_Week_Avg (weeks gw : Nat) (p : PlayerElem) (tn pos : String)
    (h : List GameEntry) :
    (mkRecord weeks gw p tn pos h).Rolling_Week_Avg =
      round2 (mkRat ((windowOf weeks gw h).map (fun g => g.total_points)).sum weeks) := rfl

@[simp] theorem mkRecord_Points_Per_90 (weeks gw : Nat) (p : PlayerElem) (tn pos : String)
    (h : List GameEntry) :
    (mkRecord weeks gw p tn pos h).Points_Per_90 =
      round2 (if 0 < ((windowOf weeks gw h).map (fun g => g.minutes)).sum
        then mkRat (((windowOf weeks gw h).map (fun g => g.total_points)).sum * 90)
          ((windowOf weeks gw h).map (fun g => g.minutes)).sum
        else 0) := rfl

/-! Structural facts about `playersLoop`. -/

theorem playersLoop_ids (env : Env) (weeks gw : Nat) (teams : List Team) :
    ∀ (ps : List PlayerElem) (s : CacheState) {recs : List RollingRecord} {s₂ : CacheState},
      playersLoop env weeks gw teams ps s = .ok (recs, s₂) →
      ∀ rec ∈ recs, rec.Player_ID ∈ ps.map (fun q => q.id) := by
  intro ps
  induction ps with
  | nil =>
    intro s recs s₂ h rec hrec
    rw [playersLoop_nil] at h
    simp only [Except.ok.injEq, Prod.mk.injEq] at h
    obtain ⟨rfl, rfl⟩ := h
    simp at hrec
  | cons p ps ih =>
    intro s recs s₂ h rec hrec
    rcases ht : teamsMap teams p.team with _ | tn
    · rw [playersLoop_cons_team_none ht] at h; cases h
    rcases hpos : positionsMap p.element_type with _ | pos
    · rw [playersLoop_cons_pos_none ht hpos] at h; cases h
    rcases hg : get_player_history env s p.id with ⟨hd?, s₁⟩
    rcases hd? with _ | hd
    · rw [playersLoop_cons_hist_none ht hpos hg] at h
      exact List.mem_cons_of_mem _ (ih s₁ h rec hrec)
    · by_cases hlen : weeks ≤ (sortRoundDesc (qualifying gw hd.history)).length
      · rw [playersLoop_cons_emit ht hpos hg hlen] at h
        rcases hrest : playersLoop env weeks gw teams ps s₁ with e | ⟨rest, s₃⟩ <;> rw [hrest] at h
        · cases h
        · simp only [Except.ok.injEq, Prod.mk.injEq] at h
          obtain ⟨rfl, rfl⟩ := h
          rcases List.mem_cons.mp hrec with rfl | hmem
          · simp
          · exact List.mem_cons_of_mem _ (ih s₁ hrest rec hmem)
      · rw [playersLoop_cons_short ht hpos hg hlen] at h
        exact List.mem_cons_of_mem _ (ih s₁ h rec hrec)

theorem playersLoop_results (env : Env) (weeks gw : Nat) (teams : List Team) :
    ∀ (ps : List PlayerElem) (s : CacheState) {recs : List RollingRecord} {s₂ : CacheState},
      playersLoop env weeks gw teams ps s = .ok (recs, s₂) → s₂.results = s.results := by
  intro ps
  induction ps with
  | nil =>
    intro s recs s₂ h
    rw [playersLoop_nil] at h
    simp only [Except.ok.injEq, Prod.mk.injEq] at h
    obtain ⟨rfl, rfl⟩ := h
    rfl
  | cons p ps ih =>
    intro s recs s₂ h
    rcases ht : teamsMap teams p.team with _ | tn
    · rw [playersLoop_cons_team_none ht] at h; cases h
    rcases hpos : positionsMap p.element_type with _ | pos
    · rw [playersLoop_cons_pos_none ht hpos] at h; cases h
    rcases hg : get_player_history env s p.id with ⟨hd?, s₁⟩
    have hres : s₁.results = s.results := by
      have := get_player_history_snd_results env s p.id
      rw [hg] at this
      exact this
    rcases hd? with _ | hd
    · rw [playersLoop_cons_hist_none ht hpos hg] at h
      rw [ih s₁ h, hres]
    · by_cases hlen : weeks ≤ (sortRoundDesc (qualifying gw hd.history)).length
      · rw [playersLoop_cons_emit ht hpos hg hlen] at h
        rcases hrest : playersLoop env weeks gw teams ps s₁ with e | ⟨rest, s₃⟩ <;> rw [hrest] at h
        · cases h
        · simp only [Except.ok.injEq, Prod.mk.injEq] at h
          obtain ⟨rfl, rfl⟩ := h
          rw [ih s₁ hrest, hres]
      · rw [playersLoop_cons_short ht hpos hg hlen] at h
        rw [ih s₁ h, hres]

theorem playersLoop_lookup (env : Env) (weeks gw : Nat) (teams : List Team) :
    ∀ (ps : List PlayerElem) (s : CacheState) {recs : List RollingRecord} {s₂ : CacheState},
      playersLoop env weeks gw teams ps s = .ok (recs, s₂) →
      (ps.map (fun q => q.id)).Nodup →
      ∀ p ∈ ps,
        ((∃ rec ∈ recs, rec.Player_ID = p.id) ↔
          ∃ hd, historyLookup env p.id (s.player p.id) = some hd ∧
            weeks ≤ (qualifying gw hd.history).length)
        ∧ (∀ rec ∈ recs, rec.Player_ID = p.id →
            ∃ tn pos hd, teamsMap teams p.team = some tn ∧
              positionsMap p.element_type = some pos ∧
              historyLookup env p.id (s.player p.id) = some hd ∧
              rec = mkRecord weeks gw p tn pos hd.history) := by
  intro ps
  induction ps with
  | nil =>
    intro s recs s₂ h hnd p hp
    simp at hp
  | cons p₀ ps ih =>
    intro s recs s₂ h hnd p hp
    have hnd' : (p₀.id :: ps.map (fun q => q.id)).Nodup := by
      rwa [List.map_cons] at hnd
    have hnd₀ : p₀.id ∉ ps.map (fun q => q.id) := (List.nodup_cons.mp hnd').1
    have hndt : (ps.map (fun q => q.id)).Nodup := (List.nodup_cons.mp hnd').2
    rcases ht : teamsMap teams p₀.team with _ | tn
    · rw [playersLoop_cons_team_none ht] at h; cases h
    rcases hpos : positionsMap p₀.element_type with _ | pos
    · rw [playersLoop_cons_pos_none ht hpos] at h; cases h
    rcases hg : get_player_history env s p₀.id with ⟨hd?, s₁⟩
    have hlook : historyLookup env p₀.id (s.player p₀.id) = hd? := by
      rw [← get_player_history_fst, hg]
    rcases List.mem_cons.mp hp with rfl | hptail
    · -- the player under consideration is the head of the list
      rcases hd? with _ | hd
      · rw [playersLoop_cons_hist_none ht hpos hg] at h
        have hno : ∀ rec ∈ recs, rec.Player_ID ≠ p.id := by
          intro rec hrec hid
          exact hnd₀ (hid ▸ playersLoop_ids env weeks gw teams ps s₁ h rec hrec)
        constructor
        · constructor
          · rintro ⟨rec, hrec, hid⟩
            exact absurd hid (hno rec hrec)
          · rintro ⟨hd, hhd, -⟩
            rw [hlook] at hhd
            cases hhd
        · intro rec hrec hid
          exact absurd hid (hno rec hrec)
      · by_cases hlen : weeks ≤ (sortRoundDesc (qualifying gw hd.history)).length
        · rw [playersLoop_cons_emit ht hpos hg hlen] at h
          rcases hrest : playersLoop env weeks gw teams ps s₁ with e | ⟨rest, s₃⟩ <;> rw [hrest] at h
          · cases h
          · simp only [Except.ok.injEq, Prod.mk.injEq] at h
            obtain ⟨rfl, rfl⟩ := h
            have hql : weeks ≤ (qualifying gw hd.history).length := by
              rwa [sortRoundDesc_length] at hlen
            constructor
            · constructor
              · intro _
                exact ⟨hd, hlook, hql⟩
              · intro _
                exact ⟨mkRecord weeks gw p tn pos hd.history, List.mem_cons_self _ _, rfl⟩
            · intro rec hrec hid
              rcases List.mem_cons.mp hrec with rfl | hmem
              · exact ⟨tn, pos, hd, ht, hpos, hlook, rfl⟩
              · exact absurd (hid ▸ playersLoop_ids env weeks gw teams ps s₁ hrest rec hmem) hnd₀
        · rw [playersLoop_cons_short ht hpos hg hlen] at h
          have hql : ¬ weeks ≤ (qualifying gw hd.history).length := by
            rwa [sortRoundDesc_length] at hlen
          have hno : ∀ rec ∈ recs, rec.Player_ID ≠ p.id := by
            intro rec hrec hid
            exact hnd₀ (hid ▸ playersLoop_ids env weeks gw teams ps s₁ h rec hrec)
          constructor
          · constructor
            · rintro ⟨rec, hrec, hid⟩
              exact absurd hid (hno rec hrec)
            · rintro ⟨hd', hhd, hlen'⟩
              rw [hlook] at hhd
              cases hhd
              exact absurd hlen' hql
          · intro rec hrec hid
            exact absurd hid (hno rec hrec)
    · -- the player under consideration sits in the tail
      have hpid : p.id ≠ p₀.id := by
        intro hid
        exact hnd₀ (hid ▸ List.mem_map_of_mem (fun q => q.id) hptail)
      have hentry : s₁.player p.id = s.player p.id := by
        have := get_player_history_snd_player_ne env s p₀.id p.id hpid
        rw [hg] at this
        exact this
      rcases hd? with _ | hd
      · rw [playersLoop_cons_hist_none ht hpos hg] at h
        have := ih s₁ h hndt p hptail
        rwa [hentry] at this
      · by_cases hlen : weeks ≤ (sortRoundDesc (qualifying gw hd.history)).length
        · rw [playersLoop_cons_emit ht hpos hg hlen] at h
          rcases hrest : playersLoop env weeks gw teams ps s₁ with e | ⟨rest, s₃⟩ <;> rw [hrest] at h
          · cases h
          · simp only [Except.ok.injEq, Prod.mk.injEq] at h
            obtain ⟨rfl, rfl⟩ := h
            have iht := ih s₁ hrest hndt p hptail
            rw [hentry] at iht
            constructor
            · constructor
              · rintro ⟨rec, hrec, hid⟩
                rcases List.mem_cons.mp hrec with rfl | hmem
                · rw [mkRecord_Player_ID] at hid
                  exact absurd hid.symm hpid
                · exact iht.1.mp ⟨rec, hmem, hid⟩
              · intro hr
                rcases iht.1.mpr hr with ⟨rec, hmem, hid⟩
                exact ⟨rec, List.mem_cons_of_mem _ hmem, hid⟩
            · intro rec hrec hid
              rcases List.mem_cons.mp hrec with rfl | hmem
              · rw [mkRecord_Player_ID] at hid
                exact absurd hid.symm hpid
              · exact iht.2 rec hmem hid
        · rw [playersLoop_cons_short ht hpos hg hlen] at h
          have := ih s₁ h hndt p hptail
          rwa [hentry] at this

theorem get_player_history_preserves_none (env : Env) (s : CacheState) (pid q : Nat)
    (hf : env.fetchHistory q = none) (he : s.player q = none) :
    ((get_player_history env s pid).2).player q = none := by
  by_cases hpq : q = pid
  · subst hpq
    rw [get_player_history_of_none env s q he hf]
    exact he
  · rw [get_player_history_snd_player_ne env s pid q hpq]
    exact he

theorem playersLoop_skip (env : Env) (weeks gw : Nat) (teams : List Team) (q : PlayerElem)
    {tnq posq : String}
    (hfq : env.fetchHistory q.id = none)
    (htq : teamsMap teams q.team = some tnq)
    (hposq : positionsMap q.element_type = some posq) :
    ∀ (l₁ l₂ : List PlayerElem) (s : CacheState), s.player q.id = none →
      playersLoop env weeks gw teams (l₁ ++ q :: l₂) s =
        playersLoop env weeks gw teams (l₁ ++ l₂) s := by
  intro l₁
  induction l₁ with
  | nil =>
    intro l₂ s he
    rw [List.nil_append, List.nil_append,
      playersLoop_cons_hist_none htq hposq (get_player_history_of_none env s q.id he hfq)]
  | cons p l₁ ih =>
    intro l₂ s he
    rw [List.cons_append, List.cons_append]
    rcases ht : teamsMap teams p.team with _ | tn
    · rw [playersLoop_cons_team_none ht, playersLoop_cons_team_none ht]
    rcases hpos : positionsMap p.element_type with _ | pos
    · rw [playersLoop_cons_pos_none ht hpos, playersLoop_cons_pos_none ht hpos]
    rcases hg : get_player_history env s p.id with ⟨hd?, s₁⟩
    have he₁ : s₁.player q.id = none := by
      have := get_player_history_preserves_none env s p.id q.id hfq he
      rw [hg] at this
      exact this
    rcases hd? with _ | hd
    · rw [playersLoop_cons_hist_none ht hpos hg, playersLoop_cons_hist_none ht hpos hg]
      exact ih l₂ s₁ he₁
    · by_cases hlen : weeks ≤ (sortRoundDesc (qualifying gw hd.history)).length
      · rw [playersLoop_cons_emit ht hpos hg hlen, playersLoop_cons_emit ht hpos hg hlen,
          ih l₂ s₁ he₁]
      · rw [playersLoop_cons_short ht hpos hg hlen, playersLoop_cons_short ht hpos hg hlen]
        exact ih l₂ s₁ he₁

theorem playersLoop_no_id (env : Env) (weeks gw : Nat) (teams : List Team) (pid : Nat)
    (hf : env.fetchHistory pid = none) :
    ∀ (ps : List PlayerElem) (s : CacheState) {recs : List RollingRecord} {s₂ : CacheState},
      s.player pid = none →
      playersLoop env weeks gw teams ps s = .ok (recs, s₂) →
      ∀ rec ∈ recs, rec.Player_ID ≠ pid := by
  intro ps
  induction ps with
  | nil =>
    intro s recs s₂ he h rec hrec
    rw [playersLoop_nil] at h
    simp only [Except.ok.injEq, Prod.mk.injEq] at h
    obtain ⟨rfl, rfl⟩ := h
    simp at hrec
  | cons p ps ih =>
    intro s recs s₂ he h rec hrec
    rcases ht : teamsMap teams p.team with _ | tn
    · rw [playersLoop_cons_team_none ht] at h; cases h
    rcases hpos : positionsMap p.element_type with _ | pos
    · rw [playersLoop_cons_pos_none ht hpos] at h; cases h
    rcases hg : get_player_history env s p.id with ⟨hd?, s₁⟩
    have he₁ : s₁.player pid = none := by
      have := get_player_history_preserves_none env s p.id pid hf he
      rw [hg] at this
      exact this
    rcases hd? with _ | hd
    · rw [playersLoop_cons_hist_none ht hpos hg] at h
      exact ih s₁ he₁ h rec hrec
    · have hpne : p.id ≠ pid := by
        intro hid
        rw [hid, get_player_history_of_none env s pid he hf] at hg
        cases hg
      by_cases hlen : weeks ≤ (sortRoundDesc (qualifying gw hd.history)).length
      · rw [playersLoop_cons_emit ht hpos hg hlen] at h
        rcases hrest : playersLoop env weeks gw teams ps s₁ with e | ⟨rest, s₃⟩ <;> rw [hrest] at h
        · cases h
        · simp only [Except.ok.injEq, Prod.mk.injEq] at h
          obtain ⟨rfl, rfl⟩ := h
          rcases List.mem_cons.mp hrec with rfl | hmem
          · rw [mkRecord_Player_ID]
            exact hpne
          · exact ih s₁ he₁ hrest rec hmem
      · rw [playersLoop_cons_short ht hpos hg hlen] at h
        exact ih s₁ he₁ h rec hrec

theorem playersLoop_err (env : Env) (weeks gw : Nat) (teams : List Team) (p : PlayerElem)
    (hbad : teamsMap teams p.team = none ∨ positionsMap p.element_type = none) :
    ∀ (ps : List PlayerElem) (s : CacheState), p ∈ ps →
      ∃ e, playersLoop env weeks gw teams ps s = .error e := by
  intro ps
  induction ps with
  | nil =>
    intro s hp
    simp at hp
  | cons p₀ ps ih =>
    intro s hp
    rcases ht : teamsMap teams p₀.team with _ | tn
    · exact ⟨KeyErr.team p₀.team, playersLoop_cons_team_none ht⟩
    rcases hpos : positionsMap p₀.element_type with _ | pos
    · exact ⟨KeyErr.position p₀.element_type, playersLoop_cons_pos_none ht hpos⟩
    have hptail : p ∈ ps := by
      rcases List.mem_cons.mp hp with rfl | hptail
      · rcases hbad with hb | hb
        · rw [ht] at hb; cases hb
        · rw [hpos] at hb; cases hb
      · exact hptail
    rcases hg : get_player_history env s p₀.id with ⟨hd?, s₁⟩
    rcases hd? with _ | hd
    · rw [playersLoop_cons_hist_none ht hpos hg]
      exact ih s₁ hptail
    · by_cases hlen : weeks ≤ (sortRoundDesc (qualifying gw hd.history)).length
      · rw [playersLoop_cons_emit ht hpos hg hlen]
        rcases ih s₁ hptail with ⟨e, herr⟩
        rw [herr]
        exact ⟨e, rfl⟩
      · rw [playersLoop_cons_short ht hpos hg hlen]
        exact ih s₁ hptail

theorem playersLoop_cachehit (env : Env) (weeks gw : Nat) (teams : List Team) :
    ∀ (ps : List PlayerElem) (s : CacheState),
      (∀ p ∈ ps, is_cache_valid 24 env.now (s.player p.id) = true) →
      playersLoop env weeks gw teams ps s =
        (pureLoop env s.player weeks gw teams ps).map (fun recs => (recs, s)) := by
  intro ps
  induction ps with
  | nil =>
    intro s hv
    rw [playersLoop_nil]
    rfl
  | cons p ps ih =>
    intro s hv
    have hvp : is_cache_valid 24 env.now (s.player p.id) = true :=
      hv p (List.mem_cons_self _ _)
    have hvt : ∀ q ∈ ps, is_cache_valid 24 env.now (s.player q.id) = true :=
      fun q hq => hv q (List.mem_cons_of_mem _ hq)
    rcases he : s.player p.id with _ | ⟨t, d⟩
    · rw [he] at hvp
      simp [is_cache_valid] at hvp
    have hgph : get_player_history env s p.id = (some d, s) :=
      get_player_history_of_valid env s p.id he (by rwa [he] at hvp ⊢)
    have hlook : historyLookup env p.id (s.player p.id) = some d := by
      rw [← get_player_history_fst, hgph]
    rcases ht : teamsMap teams p.team with _ | tn
    · rw [playersLoop_cons_team_none ht]
      simp only [pureLoop, ht]
      rfl
    rcases hpos : positionsMap p.element_type with _ | pos
    · rw [playersLoop_cons_pos_none ht hpos]
      simp only [pureLoop, ht, hpos]
      rfl
    by_cases hlen : weeks ≤ (sortRoundDesc (qualifying gw d.history)).length
    · rw [playersLoop_cons_emit ht hpos hgph hlen, ih s hvt]
      simp only [pureLoop, ht, hpos, hlook, hlen, if_true]
      rcases pureLoop env s.player weeks gw teams ps with e | rest <;> rfl
    · rw [playersLoop_cons_short ht hpos hgph hlen, ih s hvt]
      simp only [pureLoop, ht, hpos, hlook, hlen, if_false]

/-! Facts about `get_bootstrap_data`. -/

theorem get_bootstrap_data_of_valid (env : Env) (s : CacheState) {t : ℤ} {b : BootstrapData}
    (he : s.bootstrap = some (t, b))
    (hv : is_cache_valid 6 env.now s.bootstrap = true) :
    get_bootstrap_data env s = (some b, s, []) := by
  unfold get_bootstrap_data
  rw [he] at hv
  simp [he, hv, loadDoc]

theorem get_bootstrap_data_snd_results (env : Env) (s : CacheState) :
    ((get_bootstrap_data env s).2.1).results = s.results := by
  unfold get_bootstrap_data
  rcases h : (if is_cache_valid 6 env.now s.bootstrap then loadDoc s.bootstrap else none) with _ | d
  · rcases hf : env.fetchBootstrap with _ | d
    · rcases hl : loadDoc s.bootstrap with _ | d <;> simp
    · simp
  · simp

theorem get_bootstrap_data_snd_player (env : Env) (s : CacheState) :
    ((get_bootstrap_data env s).2.1).player = s.player := by
  unfold get_bootstrap_data
  rcases h : (if is_cache_valid 6 env.now s.bootstrap then loadDoc s.bootstrap else none) with _ | d
  · rcases hf : env.fetchBootstrap with _ | d
    · rcases hl : loadDoc s.bootstrap with _ | d <;> simp
    · simp
  · simp

theorem get_bootstrap_data_snd_bootstrap_eq (env : Env) (s : CacheState) :
    ((get_bootstrap_data env s).2.1).bootstrap = s.bootstrap ∨
      ∃ d, env.fetchBootstrap = some d ∧
        ((get_bootstrap_data env s).2.1).bootstrap = some (env.now, d) := by
  unfold get_bootstrap_data
  rcases h : (if is_cache_valid 6 env.now s.bootstrap then loadDoc s.bootstrap else none) with _ | d
  · rcases hf : env.fetchBootstrap with _ | d
    · rcases hl : loadDoc s.bootstrap with _ | d <;> simp
    · right
      exact ⟨d, rfl, rfl⟩
  · simp

/-! Destructor for a successful `calculate_rolling_averages` run that
reached the player loop. -/

theorem calculate_ok_destruct {env : Env} {s : CacheState} {weeks : Nat}
    {b : BootstrapData} {s₁ : CacheState} {sigs : List Signal} {gw : Nat}
    {tbl : List RollingRecord} {s₂ : CacheState} {sigs₂ : List Signal}
    (hb : get_bootstrap_data env s = (some b, s₁, sigs))
    (hgw : findCurrentGw b.events = some gw) (hgw0 : gw ≠ 0)
    (hrun : calculate_rolling_averages env s weeks = .ok (tbl, s₂, sigs₂)) :
    ∃ recs s₃, playersLoop env weeks gw b.teams b.elements s₁ = .ok (recs, s₃) ∧
      tbl = sort_values_desc recs ∧
      sigs₂ = sigs ++ [Signal.successMsg] ∧
      ((recs = [] ∧ tbl = [] ∧ s₂ = s₃) ∨
        (recs ≠ [] ∧ s₂ = saveResults s₃ weeks env.now tbl gw)) := by
  unfold calculate_rolling_averages at hrun
  rw [hb] at hrun
  dsimp only at hrun
  rw [hgw] at hrun
  dsimp only at hrun
  rw [if_neg hgw0] at hrun
  rcases hloop : playersLoop env weeks gw b.teams b.elements s₁ with e | ⟨recs, s₃⟩ <;>
    rw [hloop] at hrun
  · cases hrun
  · rcases recs with _ | ⟨r, rs⟩
    · simp only [Except.ok.injEq, Prod.mk.injEq] at hrun
      obtain ⟨rfl, rfl, rfl⟩ := hrun
      exact ⟨[], s₃, rfl, rfl, rfl, Or.inl ⟨rfl, rfl, rfl⟩⟩
    · simp only [Except.ok.injEq, Prod.mk.injEq] at hrun
      obtain ⟨rfl, rfl, rfl⟩ := hrun
      exact ⟨r :: rs, s₃, rfl, rfl, rfl, Or.inr ⟨by simp, rfl⟩⟩

theorem playersLoop_shape (env : Env) (weeks gw : Nat) (teams : List Team) :
    ∀ (ps : List PlayerElem) (s : CacheState) {recs : List RollingRecord} {s₂ : CacheState},
      playersLoop env weeks gw teams ps s = .ok (recs, s₂) →
      ∀ rec ∈ recs, ∃ (p : PlayerElem) (tn pos : String) (hd : HistoryData),
        rec = mkRecord weeks gw p tn pos hd.history := by
  intro ps
  induction ps with
  | nil =>
    intro s recs s₂ h rec hrec
    rw [playersLoop_nil] at h
    simp only [Except.ok.injEq, Prod.mk.injEq] at h
    obtain ⟨rfl, rfl⟩ := h
    simp at hrec
  | cons p ps ih =>
    intro s recs s₂ h rec hrec
    rcases ht : teamsMap teams p.team with _ | tn
    · rw [playersLoop_cons_team_none ht] at h; cases h
    rcases hpos : positionsMap p.element_type with _ | pos
    · rw [playersLoop_cons_pos_none ht hpos] at h; cases h
    rcases hg : get_player_history env s p.id with ⟨hd?, s₁⟩
    rcases hd? with _ | hd
    · rw [playersLoop_cons_hist_none ht hpos hg] at h
      exact ih s₁ h rec hrec
    · by_cases hlen : weeks ≤ (sortRoundDesc (qualifying gw hd.history)).length
      · rw [playersLoop_cons_emit ht hpos hg hlen] at h
        rcases hrest : playersLoop env weeks gw teams ps s₁ with e | ⟨rest, s₃⟩ <;> rw [hrest] at h
        · cases h
        · simp only [Except.ok.injEq, Prod.mk.injEq] at h
          obtain ⟨rfl, rfl⟩ := h
          rcases List.mem_cons.mp hrec with rfl | hmem
          · exact ⟨p, tn, pos, hd, rfl⟩
          · exact ih s₁ hrest rec hmem
      · rw [playersLoop_cons_short ht hpos hg hlen] at h
        exact ih s₁ h rec hrec

theorem round2_zero : round2 0 = 0 := by decide

theorem mkRat_mul_ninety (tp : ℤ) (tm : ℕ) :
    (mkRat (tp * 90) tm : ℚ) = (tp : ℚ) / (tm : ℚ) * 90 := by
  rw [Rat.mkRat_eq_div]
  push_cast
  ring

theorem findCurrentGw_eq_none {events : List Event}
    (hnone : ∀ e ∈ events, e.is_current = false) : findCurrentGw events = none := by
  unfold findCurrentGw
  have h : events.find? (fun e => e.is_current) = none :=
    List.find?_eq_none.mpr (fun x hx => by simp [hnone x hx])
  rw [h]
  rfl

/-- Claim C3.  If no event of the obtained bootstrap snapshot is flagged
`is_current`, `calculate_rolling_averages` stops before the player loop and
returns the empty table together with the season-inactive warning (the
spec's `SeasonInactive` failure): the cache state is exactly the one left
by the bootstrap step and no player is processed. -/
theorem c3_season_inactive (env : Env) (s : CacheState) (weeks : Nat)
    (b : BootstrapData) (s₁ : CacheState) (sigs : List Signal)
    (hb : get_bootstrap_data env s = (some b, s₁, sigs))
    (hnone : ∀ e ∈ b.events, e.is_current = false) :
    calculate_rolling_averages env s weeks =
      .ok ([], s₁, sigs ++ [Signal.warnSeasonInactive]) := by
  unfold calculate_rolling_averages
  rw [hb]
  dsimp only
  rw [findCurrentGw_eq_none hnone]

/-- Claim C4.  When the fresh bootstrap fetch fails: with a stale cache
entry present (its age at least the 6h TTL) the stale document is returned
together with the fetch-error and "using stale data" signals and no
exception; with no cache entry at all the call returns no data and
`calculate_rolling_averages` then returns the empty table with the
`NoData` error signal. -/
theorem c4_bootstrap_stale_fallback (env : Env) (s : CacheState) (weeks : Nat)
    (t : ℤ) (b : BootstrapData) :
    ((env.fetchBootstrap = none ∧ s.bootstrap = some (t, b) ∧ ¬ env.now - t < 6) →
      get_bootstrap_data env s =
        (some b, s, [Signal.errorFetchBootstrap, Signal.warnStaleBootstrap]))
    ∧ ((env.fetchBootstrap = none ∧ s.bootstrap = none) →
      get_bootstrap_data env s = (none, s, [Signal.errorFetchBootstrap]) ∧
        calculate_rolling_averages env s weeks =
          .ok ([], s, [Signal.errorFetchBootstrap, Signal.errorNoData])) := by
  constructor
  · rintro ⟨hf, he, hstale⟩
    unfold get_bootstrap_data
    simp [he, hf, is_cache_valid, hstale, loadDoc]
  · rintro ⟨hf, he⟩
    have hres : get_bootstrap_data env s = (none, s, [Signal.errorFetchBootstrap]) := by
      unfold get_bootstrap_data
      simp [he, hf, is_cache_valid, loadDoc]
    refine ⟨hres, ?_⟩
    unfold calculate_rolling_averages
    rw [hres]
    rfl

/-- Claim C10.  If any player of the snapshot has a team id absent from the
snapshot's team map or an element type outside the 4-entry position map,
the whole computation aborts with an uncaught lookup error (for any history
oracle: the faulty lookup happens before that player's history fetch), it
does not merely skip that player.  The positive-window hypothesis keeps the
model inside the domain where Python would not already have raised a
`ZeroDivisionError` for `weeks = 0`. -/
theorem c10_lookup_error_aborts (env : Env) (s : CacheState) (weeks : Nat)
    (b : BootstrapData) (s₁ : CacheState) (sigs : List Signal) (gw : Nat) (p : PlayerElem)
    (_hN : 0 < weeks)
    (hb : get_bootstrap_data env s = (some b, s₁, sigs))
    (hgw : findCurrentGw b.events = some gw) (hgw0 : gw ≠ 0)
    (hp : p ∈ b.elements)
    (hbad : teamsMap b.teams p.team = none ∨ positionsMap p.element_type = none) :
    ∃ e, calculate_rolling_averages env s weeks = .error e := by
  rcases playersLoop_err env weeks gw b.teams p hbad b.elements s₁ hp with ⟨e, herr⟩
  refine ⟨e, ?_⟩
  unfold calculate_rolling_averages
  rw [hb]
  dsimp only
  rw [hgw]
  dsimp only
  rw [if_neg hgw0, herr]

/-- Claim C5.  A player whose history is unobtainable (no cache file and a
failing fetch) is silently excluded: the loop over the snapshot with that
player present computes exactly the same result as the loop without the
player (so every other player is processed identically and nothing aborts),
and no row of any successful run's table carries that player's id. -/
theorem c5_player_failure_skipped (env : Env) (s : CacheState) (weeks : Nat)
    (b : BootstrapData) (s₁ : CacheState) (sigs : List Signal) (gw : Nat)
    (l₁ l₂ : List PlayerElem) (q : PlayerElem) (tnq posq : String)
    (_hN : 0 < weeks)
    (hb : get_bootstrap_data env s = (some b, s₁, sigs))
    (hgw : findCurrentGw b.events = some gw) (hgw0 : gw ≠ 0)
    (helems : b.elements = l₁ ++ q :: l₂)
    (hcache : s₁.player q.id = none)
    (hfetch : env.fetchHistory q.id = none)
    (htq : teamsMap b.teams q.team = some tnq)
    (hposq : positionsMap q.element_type = some posq) :
    playersLoop env weeks gw b.teams b.elements s₁ =
      playersLoop env weeks gw b.teams (l₁ ++ l₂) s₁
    ∧ ∀ tbl s₂ sigs₂, calculate_rolling_averages env s weeks = .ok (tbl, s₂, sigs₂) →
        ∀ rec ∈ tbl, rec.Player_ID ≠ q.id := by
  constructor
  · rw [helems]
    exact playersLoop_skip env weeks gw b.teams q hfetch htq hposq l₁ l₂ s₁ hcache
  · intro tbl s₂ sigs₂ hrun rec hrec
    obtain ⟨recs, s₃, hloop, htbl, -, -⟩ := calculate_ok_destruct hb hgw hgw0 hrun
    have hrecs : rec ∈ recs := by
      rw [htbl] at hrec
      exact mem_sort_values_desc.mp hrec
    exact playersLoop_no_id env weeks gw b.teams q.id hfetch b.elements s₁ hcache hloop rec hrecs

/-- Claim C1.  In a successful run that resolved a current gameweek, a
player with obtainable history gets a row in the returned table exactly
when the player has at least `weeks` qualifying history entries
(`minutes > 0` and `round ≤ gw`); every such row aggregates exactly the
first `weeks` entries of the round-descending sort of the qualifying
entries — a window of length exactly `weeks`, never a partial one — and
that sort is a permutation of the qualifying entries that is descending in
the round number.  The positive-window hypothesis keeps the model inside
the domain where Python's `total_points / weeks` does not raise. -/
theorem c1_window_emission (env : Env) (s : CacheState) (weeks : Nat)
    (b : BootstrapData) (s₁ : CacheState) (sigs : List Signal) (gw : Nat)
    (p : PlayerElem) (hd : HistoryData)
    (tbl : List RollingRecord) (s₂ : CacheState) (sigs₂ : List Signal)
    (_hN : 0 < weeks)
    (hb : get_bootstrap_data env s = (some b, s₁, sigs))
    (hgw : findCurrentGw b.events = some gw) (hgw0 : gw ≠ 0)
    (hnd : (b.elements.map (fun q => q.id)).Nodup)
    (hp : p ∈ b.elements)
    (hh : (get_player_history env s₁ p.id).1 = some hd)
    (hrun : calculate_rolling_averages env s weeks = .ok (tbl, s₂, sigs₂)) :
    ((∃ rec ∈ tbl, rec.Player_ID = p.id) ↔ weeks ≤ (qualifying gw hd.history).length)
    ∧ (∀ rec ∈ tbl, rec.Player_ID = p.id →
        (windowOf weeks gw hd.history).length = weeks
        ∧ rec.Last_GW_Points = ((windowOf weeks gw hd.history).map (fun g => g.total_points)).sum
        ∧ rec.Total_Minutes = ((windowOf weeks gw hd.history).map (fun g => g.minutes)).sum
        ∧ rec.Goals = ((windowOf weeks gw hd.history).map (fun g => g.goals_scored)).sum
        ∧ rec.Assists = ((windowOf weeks gw hd.history).map (fun g => g.assists)).sum
        ∧ rec.Bonus_Points = ((windowOf weeks gw hd.history).map (fun g => g.bonus)).sum)
    ∧ (sortRoundDesc (qualifying gw hd.history)).Perm (qualifying gw hd.history)
    ∧ (sortRoundDesc (qualifying gw hd.history)).Pairwise (fun a c => c.round ≤ a.round) := by
  obtain ⟨recs, s₃, hloop, htbl, -, -⟩ := calculate_ok_destruct hb hgw hgw0 hrun
  have hmain := playersLoop_lookup env weeks gw b.teams b.elements s₁ hloop hnd p hp
  have hlook : historyLookup env p.id (s₁.player p.id) = some hd := by
    rw [← get_player_history_fst]
    exact hh
  have hmem : ∀ rec : RollingRecord, rec ∈ tbl ↔ rec ∈ recs := by
    intro rec
    rw [htbl]
    exact mem_sort_values_desc
  refine ⟨?_, ?_, sortRoundDesc_perm _, sortRoundDesc_pairwise _⟩
  · constructor
    · rintro ⟨rec, hrec, hid⟩
      rcases hmain.1.mp ⟨rec, (hmem rec).mp hrec, hid⟩ with ⟨hd', hhd', hlen'⟩
      rw [hlook] at hhd'
      cases hhd'
      exact hlen'
    · intro hlen
      rcases hmain.1.mpr ⟨hd, hlook, hlen⟩ with ⟨rec, hrec, hid⟩
      exact ⟨rec, (hmem rec).mpr hrec, hid⟩
  · intro rec hrec hid
    rcases hmain.2 rec ((hmem rec).mp hrec) hid with ⟨tn, pos, hd', -, -, hhd', hrec_eq⟩
    rw [hlook] at hhd'
    cases hhd'
    have hlen : weeks ≤ (qualifying gw hd.history).length :=
      hmain.1.mp ⟨rec, (hmem rec).mp hrec, hid⟩ |>.elim
        (fun hd'' h => by
          rcases h with ⟨hhd'', hlen''⟩
          rw [hlook] at hhd''
          cases hhd''
          exact hlen'')
    have hwl : (windowOf weeks gw hd.history).length = weeks := by
      unfold windowOf
      rw [List.length_take, sortRoundDesc_length]
      exact Nat.min_eq_left hlen
    subst hrec_eq
    refine ⟨hwl, ?_, ?_, ?_, ?_, ?_⟩ <;> simp

/-- Claim C6 (amended).  In any successful run, every row of the table has
`Points_Per_90 = 0` when the window's total minutes is zero (the guarded
branch, no division happens), and otherwise carries the points-per-90
quotient rounded to two decimal places — not the exact quotient, which is
what the original claim asserted. -/
theorem c6_ppm90_rounded (env : Env) (s : CacheState) (weeks : Nat)
    (b : BootstrapData) (s₁ : CacheState) (sigs : List Signal) (gw : Nat)
    (tbl : List RollingRecord) (s₂ : CacheState) (sigs₂ : List Signal)
    (_hN : 0 < weeks)
    (hb : get_bootstrap_data env s = (some b, s₁, sigs))
    (hgw : findCurrentGw b.events = some gw) (hgw0 : gw ≠ 0)
    (hrun : calculate_rolling_averages env s weeks = .ok (tbl, s₂, sigs₂)) :
    ∀ rec ∈ tbl,
      (rec.Total_Minutes = 0 → rec.Points_Per_90 = 0)
      ∧ (0 < rec.Total_Minutes →
          rec.Points_Per_90 =
            round2 ((rec.Last_GW_Points : ℚ) / (rec.Total_Minutes : ℚ) * 90)) := by
  obtain ⟨recs, s₃, hloop, htbl, -, -⟩ := calculate_ok_destruct hb hgw hgw0 hrun
  intro rec hrec
  have hrecs : rec ∈ recs := by
    rw [htbl] at hrec
    exact mem_sort_values_desc.mp hrec
  obtain ⟨p, tn, pos, hd, rfl⟩ := playersLoop_shape env weeks gw b.teams b.elements s₁ hloop rec hrecs
  constructor
  · intro hm
    rw [mkRecord_Total_Minutes] at hm
    rw [mkRecord_Points_Per_90, hm]
    simp [round2_zero]
  · intro hm
    rw [mkRecord_Total_Minutes] at hm
    rw [mkRecord_Points_Per_90, mkRecord_Total_Minutes, mkRecord_Last_GW_Points, if_pos hm,
      mkRat_mul_ninety]

/-- Claim C7 (amended).  After a completed run that resolved a current
gameweek: when the table is non-empty it is persisted in full — together
with the resolved gameweek and the computation timestamp — under the
window-specific results key; when the table is empty the results entry for
that window is left untouched (the original claim asserted persistence for
empty runs as well, which the `if not df.empty:` guard prevents). -/
theorem c7_persist_nonempty (env : Env) (s : CacheState) (weeks : Nat)
    (b : BootstrapData) (s₁ : CacheState) (sigs : List Signal) (gw : Nat)
    (tbl : List RollingRecord) (s₂ : CacheState) (sigs₂ : List Signal)
    (_hN : 0 < weeks)
    (hb : get_bootstrap_data env s = (some b, s₁, sigs))
    (hgw : findCurrentGw b.events = some gw) (hgw0 : gw ≠ 0)
    (hrun : calculate_rolling_averages env s weeks = .ok (tbl, s₂, sigs₂)) :
    (tbl ≠ [] → s₂.results weeks = some (env.now, ⟨tbl, env.now, gw⟩))
    ∧ (tbl = [] → s₂.results weeks = s.results weeks) := by
  obtain ⟨recs, s₃, hloop, htbl, -, hcase⟩ := calculate_ok_destruct hb hgw hgw0 hrun
  have hres₁ : s₁.results = s.results := by
    have h := get_bootstrap_data_snd_results env s
    rw [hb] at h
    exact h
  have hres₃ : s₃.results = s.results := by
    rw [playersLoop_results env weeks gw b.teams b.elements s₁ hloop, hres₁]
  constructor
  · intro hne
    rcases hcase with ⟨-, htbl0, -⟩ | ⟨-, hs₂⟩
    · exact absurd htbl0 hne
    · rw [hs₂]
      simp [saveResults]
  · intro h0
    rcases hcase with ⟨-, -, hs₂⟩ | ⟨hrne, -⟩
    · rw [hs₂, hres₃]
    · exfalso
      apply hrne
      have hperm := sort_values_desc_perm recs
      rw [← htbl, h0] at hperm
      exact (hperm.symm.eq_nil)

/-- Claim C2 (amended).  The returned table of a successful run is sorted
by the rolling average in descending order and is a permutation of the
accumulated rows; but rows with equal rolling averages appear in the
*reverse* of the accumulation (snapshot) order, not in snapshot order: the
descending sort reverses a stable ascending sort of the whole table. -/
theorem c2_sorted_desc_ties_reversed (env : Env) (s : CacheState) (weeks : Nat)
    (b : BootstrapData) (s₁ : CacheState) (sigs : List Signal) (gw : Nat)
    (tbl : List RollingRecord) (s₂ : CacheState) (sigs₂ : List Signal)
    (_hN : 0 < weeks)
    (hb : get_bootstrap_data env s = (some b, s₁, sigs))
    (hgw : findCurrentGw b.events = some gw) (hgw0 : gw ≠ 0)
    (hrun : calculate_rolling_averages env s weeks = .ok (tbl, s₂, sigs₂)) :
    ∃ recs s₃, playersLoop env weeks gw b.teams b.elements s₁ = .ok (recs, s₃)
      ∧ tbl.Pairwise (fun a c => c.Rolling_Week_Avg ≤ a.Rolling_Week_Avg)
      ∧ tbl.Perm recs
      ∧ ∀ k : ℚ, tbl.filter (fun r => decide (r.Rolling_Week_Avg = k)) =
          (recs.filter (fun r => decide (r.Rolling_Week_Avg = k))).reverse := by
  obtain ⟨recs, s₃, hloop, htbl, -, -⟩ := calculate_ok_destruct hb hgw hgw0 hrun
  subst htbl
  exact ⟨recs, s₃, hloop, sort_values_desc_pairwise recs, sort_values_desc_perm recs,
    fun k => filter_sort_values_desc k recs⟩

theorem calculate_cachehit_eq (env : Env) (s : CacheState) (weeks : Nat) (t : ℤ)
    (b : BootstrapData)
    (hsb : s.bootstrap = some (t, b))
    (hvb : is_cache_valid 6 env.now s.bootstrap = true)
    (hfresh : ∀ p ∈ b.elements, is_cache_valid 24 env.now (s.player p.id) = true) :
    calculate_rolling_averages env s weeks =
      match findCurrentGw b.events with
      | none => .ok ([], s, [Signal.warnSeasonInactive])
      | some gw =>
        if gw = 0 then .ok ([], s, [Signal.warnSeasonInactive])
        else
          match pureLoop env s.player weeks gw b.teams b.elements with
          | .error e => .error e
          | .ok [] => .ok ([], s, [Signal.successMsg])
          | .ok (r :: rs) =>
            .ok (sort_values_desc (r :: rs),
              saveResults s weeks env.now (sort_values_desc (r :: rs)) gw,
              [Signal.successMsg]) := by
  unfold calculate_rolling_averages
  rw [get_bootstrap_data_of_valid env s hsb hvb]
  dsimp only
  rcases hgw : findCurrentGw b.events with _ | gw
  · rfl
  · dsimp only
    by_cases hgw0 : gw = 0
    · rw [if_pos hgw0, if_pos hgw0]
      rfl
    · rw [if_neg hgw0, if_neg hgw0,
        playersLoop_cachehit env weeks gw b.teams b.elements s hfresh]
      rcases pureLoop env s.player weeks gw b.teams b.elements with e | recs
      · rfl
      · rcases recs with _ | ⟨r, rs⟩ <;> rfl

/-- Claim C8.  With the bootstrap entry and every listed player's history
entry present and fresh in the cache, running the computation twice in
immediate succession gives a second table, and signal trace, identical to
the first: the cache-hit paths read the same data and the only write of a
run is to the results key, which the computation never reads. -/
theorem c8_idempotent_cache_hit (env : Env) (s : CacheState) (weeks : Nat) (t : ℤ)
    (b : BootstrapData) (tbl : List RollingRecord) (s₂ : CacheState) (sigs : List Signal)
    (hsb : s.bootstrap = some (t, b))
    (hvb : is_cache_valid 6 env.now s.bootstrap = true)
    (hfresh : ∀ p ∈ b.elements, is_cache_valid 24 env.now (s.player p.id) = true)
    (hrun : calculate_rolling_averages env s weeks = .ok (tbl, s₂, sigs)) :
    ∃ s₄, calculate_rolling_averages env s₂ weeks = .ok (tbl, s₄, sigs) := by
  have h1 := calculate_cachehit_eq env s weeks t b hsb hvb hfresh
  rw [h1] at hrun
  rcases hgw : findCurrentGw b.events with _ | gw <;> rw [hgw] at hrun <;> dsimp only at hrun
  · simp only [Except.ok.injEq, Prod.mk.injEq] at hrun
    obtain ⟨rfl, rfl, rfl⟩ := hrun
    exact ⟨s, by rw [calculate_cachehit_eq env s weeks t b hsb hvb hfresh, hgw]⟩
  · by_cases hgw0 : gw = 0
    · rw [if_pos hgw0] at hrun
      simp only [Except.ok.injEq, Prod.mk.injEq] at hrun
      obtain ⟨rfl, rfl, rfl⟩ := hrun
      refine ⟨s, ?_⟩
      rw [calculate_cachehit_eq env s weeks t b hsb hvb hfresh, hgw]
      dsimp only
      rw [if_pos hgw0]
    · rw [if_neg hgw0] at hrun
      rcases hpure : pureLoop env s.player weeks gw b.teams b.elements with e | recs <;>
        rw [hpure] at hrun
      · cases hrun
      · rcases recs with _ | ⟨r, rs⟩
        · simp only [Except.ok.injEq, Prod.mk.injEq] at hrun
          obtain ⟨rfl, rfl, rfl⟩ := hrun
          refine ⟨s, ?_⟩
          rw [calculate_cachehit_eq env s weeks t b hsb hvb hfresh, hgw]
          dsimp only
          rw [if_neg hgw0, hpure]
        · simp only [Except.ok.injEq, Prod.mk.injEq] at hrun
          obtain ⟨rfl, rfl, rfl⟩ := hrun
          refine ⟨saveResults (saveResults s weeks env.now (sort_values_desc (r :: rs)) gw)
            weeks env.now (sort_values_desc (r :: rs)) gw, ?_⟩
          have hsb₂ : (saveResults s weeks env.now (sort_values_desc (r :: rs)) gw).bootstrap =
              some (t, b) := hsb
          have hvb₂ : is_cache_valid 6 env.now
              (saveResults s weeks env.now (sort_values_desc (r :: rs)) gw).bootstrap = true := hvb
          have hfresh₂ : ∀ p ∈ b.elements, is_cache_valid 24 env.now
              ((saveResults s weeks env.now (sort_values_desc (r :: rs)) gw).player p.id) = true :=
            hfresh
          rw [calculate_cachehit_eq env _ weeks t b hsb₂ hvb₂ hfresh₂, hgw]
          dsimp only
          rw [if_neg hgw0]
          have hplayer : (saveResults s weeks env.now (sort_values_desc (r :: rs)) gw).player =
              s.player := rfl
          rw [hplayer, hpure]

/-- Claim C9 (amended).  When `get_team_data` is called without an explicit
gameweek *and* the cached picks entry for the `current` key is absent or
stale, the current gameweek is resolved from the bootstrap result; if no
event is flagged current the call fails, returning no data (the spec's
`NoCurrentGameweek`).  With a fresh cached entry the picks are returned
directly without consulting the bootstrap at all — the original claim,
which asserted the resolution happens on every such call, fails there. -/
theorem c9_no_current_gw_fails (env : Env) (s : CacheState) (team_id : Nat)
    (b : BootstrapData) (s₁ : CacheState) (sigs : List Signal)
    (hmiss : is_cache_valid 2 env.now (s.team team_id none) = false)
    (hb : get_bootstrap_data env s = (some b, s₁, sigs))
    (hnone : ∀ e ∈ b.events, e.is_current = false) :
    get_team_data env s team_id none = (none, s₁, sigs) := by
  simp only [get_team_data, teamKeyGw, hmiss, Bool.false_eq_true, if_false]
  rw [hb]
  dsimp only
  rw [findCurrentGw_eq_none hnone]

/-! Closed instances: counterexamples for the corrected claims and witnesses
for the proved theorems. -/

/-- Counterexample to claim C2 as stated: a snapshot listing players with
ids `[1, 2]` whose rolling averages tie at `5` produces the table in the
order `[2, 1]` — the reverse of the snapshot order, not the snapshot
order. -/
theorem c2_tie_order_counterexample :
    calculate_rolling_averages envFix sTie 1 = .ok (tblTie, stTie, [Signal.successMsg])
    ∧ bTie.elements.map (fun p => p.id) = [1, 2]
    ∧ tblTie.map (fun r => r.Player_ID) = [2, 1]
    ∧ tblTie.map (fun r => r.Rolling_Week_Avg) = [5, 5] :=
  ⟨rfl, by decide, by decide, by decide⟩

/-- Counterexample to claim C6 as stated: a one-round window with 1 point
over 70 minutes stores `Points_Per_90 = 1.29`, while the claimed exact
value `(1 / 70) × 90 = 9/7` differs from it. -/
theorem c6_ppm90_counterexample :
    calculate_rolling_averages envFix sAlice 1 = .ok (tblAlice, stAlice, [Signal.successMsg])
    ∧ tblAlice.map (fun r => r.Points_Per_90) = [mkRat 129 100]
    ∧ tblAlice.map (fun r => r.Last_GW_Points) = [1]
    ∧ tblAlice.map (fun r => r.Total_Minutes) = [70]
    ∧ mkRat 129 100 ≠ ((1 : ℤ) : ℚ) / ((70 : ℕ) : ℚ) * 90 := by
  refine ⟨rfl, by decide, by decide, by decide, ?_⟩
  rw [← mkRat_mul_ninety 1 70]
  decide

/-- Counterexample to claim C7 as stated: a run that completes with an
empty table (zero snapshot players, current gameweek present) leaves the
window's results cache entry absent instead of persisting the table. -/
theorem c7_empty_run_not_persisted :
    calculate_rolling_averages envFix sEmptyElems 3 =
      .ok ([], sEmptyElems, [Signal.successMsg])
    ∧ sEmptyElems.results 3 = none :=
  ⟨rfl, rfl⟩

/-- Counterexample to claim C9 as stated: with a fresh cached picks entry
for the `current` key, `get_team_data` called without a gameweek returns
the cached picks even though no event in the bootstrap snapshot is flagged
current — the call neither resolves the gameweek nor fails. -/
theorem c9_cached_picks_counterexample :
    get_team_data envFix sPicksCached 7 none = (some tdPicks, sPicksCached, [])
    ∧ (∀ e ∈ bNoCur.events, e.is_current = false)
    ∧ sPicksCached.bootstrap = some (9, bNoCur) :=
  ⟨rfl, by decide, rfl⟩

theorem c1_window_emission_witness :
    ((∃ rec ∈ tblAlice, rec.Player_ID = pAlice.id) ↔
      1 ≤ (qualifying 1 histAlice.history).length)
    ∧ (∀ rec ∈ tblAlice, rec.Player_ID = pAlice.id →
        (windowOf 1 1 histAlice.history).length = 1
        ∧ rec.Last_GW_Points = ((windowOf 1 1 histAlice.history).map (fun g => g.total_points)).sum
        ∧ rec.Total_Minutes = ((windowOf 1 1 histAlice.history).map (fun g => g.minutes)).sum
        ∧ rec.Goals = ((windowOf 1 1 histAlice.history).map (fun g => g.goals_scored)).sum
        ∧ rec.Assists = ((windowOf 1 1 histAlice.history).map (fun g => g.assists)).sum
        ∧ rec.Bonus_Points = ((windowOf 1 1 histAlice.history).map (fun g => g.bonus)).sum)
    ∧ (sortRoundDesc (qualifying 1 histAlice.history)).Perm (qualifying 1 histAlice.history)
    ∧ (sortRoundDesc (qualifying 1 histAlice.history)).Pairwise (fun a c => c.round ≤ a.round) :=
  c1_window_emission envFix sAlice 1 bAlice sAlice [] 1 pAlice histAlice tblAlice stAlice
    [Signal.successMsg] (by decide) rfl rfl (by decide) (by decide) (by decide) rfl rfl

theorem c2_sorted_desc_ties_reversed_witness :
    ∃ recs s₃, playersLoop envFix 1 1 bTie.teams bTie.elements sTie = .ok (recs, s₃)
      ∧ tblTie.Pairwise (fun a c => c.Rolling_Week_Avg ≤ a.Rolling_Week_Avg)
      ∧ tblTie.Perm recs
      ∧ ∀ k : ℚ, tblTie.filter (fun r => decide (r.Rolling_Week_Avg = k)) =
          (recs.filter (fun r => decide (r.Rolling_Week_Avg = k))).reverse :=
  c2_sorted_desc_ties_reversed envFix sTie 1 bTie sTie [] 1 tblTie stTie [Signal.successMsg]
    (by decide) rfl rfl (by decide) rfl

theorem c3_season_inactive_witness :
    calculate_rolling_averages envFix sNoCur 3 = .ok ([], sNoCur, [Signal.warnSeasonInactive]) :=
  c3_season_inactive envFix sNoCur 3 bNoCur sNoCur [] rfl (by decide)

theorem c4_bootstrap_stale_fallback_witness :
    get_bootstrap_data envFix sStale =
      (some bNoCur, sStale, [Signal.errorFetchBootstrap, Signal.warnStaleBootstrap])
    ∧ (get_bootstrap_data envFix sEmptyCache = (none, sEmptyCache, [Signal.errorFetchBootstrap])
      ∧ calculate_rolling_averages envFix sEmptyCache 3 =
          .ok ([], sEmptyCache, [Signal.errorFetchBootstrap, Signal.errorNoData])) :=
  ⟨(c4_bootstrap_stale_fallback envFix sStale 3 0 bNoCur).1 ⟨rfl, rfl, by decide⟩,
    (c4_bootstrap_stale_fallback envFix sEmptyCache 3 0 bNoCur).2 ⟨rfl, rfl⟩⟩

theorem c5_player_failure_skipped_witness :
    playersLoop envFix 1 1 bSkip.teams bSkip.elements sSkip =
      playersLoop envFix 1 1 bSkip.teams ([pAlice] ++ []) sSkip
    ∧ recAlice.Player_ID ≠ qFail.id := by
  have h := c5_player_failure_skipped envFix sSkip 1 bSkip sSkip [] 1 [pAlice] [] qFail
    "Arsenal" "Forward" (by decide) rfl rfl (by decide) rfl rfl rfl (by decide) rfl
  exact ⟨h.1, h.2 tblAlice stSkip [Signal.successMsg] rfl recAlice (by decide)⟩

theorem c6_ppm90_rounded_witness :
    (recAlice.Total_Minutes = 0 → recAlice.Points_Per_90 = 0)
    ∧ (0 < recAlice.Total_Minutes →
        recAlice.Points_Per_90 =
          round2 ((recAlice.Last_GW_Points : ℚ) / (recAlice.Total_Minutes : ℚ) * 90)) :=
  c6_ppm90_rounded envFix sAlice 1 bAlice sAlice [] 1 tblAlice stAlice [Signal.successMsg]
    (by decide) rfl rfl (by decide) rfl recAlice (by decide)

theorem c7_persist_nonempty_witness :
    (tblAlice ≠ [] → stAlice.results 1 = some (envFix.now, ⟨tblAlice, envFix.now, 1⟩))
    ∧ (tblAlice = [] → stAlice.results 1 = sAlice.results 1) :=
  c7_persist_nonempty envFix sAlice 1 bAlice sAlice [] 1 tblAlice stAlice [Signal.successMsg]
    (by decide) rfl rfl (by decide) rfl

theorem c8_idempotent_cache_hit_witness :
    ∃ s₄, calculate_rolling_averages envFix stAlice 1 = .ok (tblAlice, s₄, [Signal.successMsg]) :=
  c8_idempotent_cache_hit envFix sAlice 1 9 bAlice tblAlice stAlice [Signal.successMsg]
    rfl (by decide) (by decide) rfl

theorem c9_no_current_gw_fails_witness :
    get_team_data envFix sNoCur 7 none = (none, sNoCur, []) :=
  c9_no_current_gw_fails envFix sNoCur 7 bNoCur sNoCur [] rfl rfl (by decide)

theorem c10_lookup_error_aborts_witness :
    ∃ e, calculate_rolling_averages envFix sBad 3 = .error e :=
  c10_lookup_error_aborts envFix sBad 3 bBad sBad [] 1 pBadTeam (by decide) rfl rfl (by decide)
    (by decide) (Or.inl (by decide))
